import Mathlib

/-!
Shallow embedding of the Tetris engine found in `src/app/game/gameClient.tsx`
(the complete, wired single-player implementation; the hook files and the
second page variant duplicate the same logic).  Pieces, the board, collision
testing, merge, line clearing, T-spin detection, scoring, the challenge
trigger and the four player operations are translated function by function.
JavaScript numbers used as board coordinates are modelled as `Int`
(positions can be negative above the board top); counters are `Nat`.
-/

namespace Tetris

/-- Source: `type Tetromino = "I" | "J" | "L" | "O" | "S" | "T" | "Z"` -/
inductive Tetromino
  | I | J | L | O | S | T | Z
  deriving DecidableEq, Repr, BEq

/-- Source: `type Cell = { filled: boolean; color?: string; kind?: Tetromino }` -/
structure Cell where
  filled : Bool
  color : Option String := none
  kind : Option Tetromino := none
  deriving DecidableEq, Repr, BEq

abbrev Row := List Cell
abbrev Board := List Row
abbrev Matrix := List (List Nat)

/-- Source: `type Point = { x: number; y: number }` — board coordinates may be
negative (above the top of the board), so both components are `Int`. -/
structure Point where
  x : Int
  y : Int
  deriving DecidableEq, Repr, BEq

/-- Source: `const COLS = 10` -/
def COLS : Nat := 10

/-- Source: `const ROWS = 20` -/
def ROWS : Nat := 20

/-- Source: `const SHAPES: Record<Tetromino, Matrix>` -/
def SHAPES : Tetromino → Matrix
  | Tetromino.I => [[0,0,0,0],[1,1,1,1],[0,0,0,0],[0,0,0,0]]
  | Tetromino.J => [[1,0,0],[1,1,1],[0,0,0]]
  | Tetromino.L => [[0,0,1],[1,1,1],[0,0,0]]
  | Tetromino.O => [[1,1],[1,1]]
  | Tetromino.S => [[0,1,1],[1,1,0],[0,0,0]]
  | Tetromino.T => [[0,1,0],[1,1,1],[0,0,0]]
  | Tetromino.Z => [[1,1,0],[0,1,1],[0,0,0]]

/-- Source: `const COLORS: Record<Tetromino, string>` -/
def COLORS : Tetromino → String
  | Tetromino.I => "#06b6d4"
  | Tetromino.J => "#3b82f6"
  | Tetromino.L => "#f59e0b"
  | Tetromino.O => "#eab308"
  | Tetromino.S => "#22c55e"
  | Tetromino.T => "#a855f7"
  | Tetromino.Z => "#ef4444"

/-- Source: `function rotateCW(m)`: the source allocates a `w × h` zero grid `r`
and runs `r[x][h-1-y] = m[y][x]` over all `y < h`, `x < w`; every slot
`(x, c)` is written exactly once (by `y = h-1-c`), so the resulting grid is
`r[x][c] = m[h-1-c][x]`, which is what this definition produces. -/
def rotateCW (m : Matrix) : Matrix :=
  let h := m.length
  let w := (m.headD []).length
  (List.range w).map (fun x => (List.range h).map (fun c => (m.getD (h - 1 - c) []).getD x 0))

/-- Source: `function rotateCCW(m)`: the source runs `r[w-1-x][y] = m[y][x]`; slot
`(a, b)` is written exactly once (by `x = w-1-a`, `y = b`), so the grid is
`r[a][b] = m[b][w-1-a]`. -/
def rotateCCW (m : Matrix) : Matrix :=
  let h := m.length
  let w := (m.headD []).length
  (List.range w).map (fun a => (List.range h).map (fun b => (m.getD b []).getD (w - 1 - a) 0))

/-- A cell as produced by `createEmptyBoard()` / the rows unshifted by
`clearLines`: `{ filled: false }`. -/
def noCell : Cell := { filled := false }

/-- Reading `board[y][x].filled` for in-range coordinates. -/
def filledAt (board : Board) (x y : Int) : Bool :=
  ((board.getD y.toNat []).getD x.toNat noCell).filled

/-- Source: `type Piece = { kind, matrix, pos, color }` -/
structure Piece where
  kind : Tetromino
  matrix : Matrix
  pos : Point
  color : String
  deriving DecidableEq, Repr, BEq

/-- Source: `const collides = (p, board, delta) => ...`: a filled matrix cell
contributes a collision iff its board row `ny` is not negative and either
its board column is outside `[0, COLS)`, the row is `≥ ROWS`, or the board
cell there is filled (the `ny < 0` `continue` comes first in the source).
The two nested loops with early `return true` are the existential `any`. -/
def collides (p : Piece) (board : Board) (delta : Point) : Bool :=
  (List.range p.matrix.length).any (fun y =>
    (List.range ((p.matrix.getD y []).length)).any (fun x =>
      ((p.matrix.getD y []).getD x 0 != 0) &&
      (let nx := p.pos.x + (x : Int) + delta.x
       let ny := p.pos.y + (y : Int) + delta.y
       !(decide (ny < 0)) &&
       (decide (nx < 0) || decide ((COLS : Int) ≤ nx) || decide ((ROWS : Int) ≤ ny) ||
        filledAt board nx ny))))

/-- Source: `const merge = (p) => ...`: write `{filled:true, color, kind}` into
every board coordinate of a filled matrix cell whose board row is `≥ 0`.
(The source has no column guard; a negative or overflowing column index in
a JavaScript array assignment lands outside the cell array, which
`List.set`'s out-of-range no-op matches, with an explicit `0 ≤ bcol` guard
for the negative side.) -/
def mergeB (p : Piece) (board : Board) : Board :=
  (List.range p.matrix.length).foldl (fun b y =>
    (List.range ((p.matrix.getD y []).length)).foldl (fun b x =>
      if (p.matrix.getD y []).getD x 0 ≠ 0 then
        let brow := p.pos.y + (y : Int)
        let bcol := p.pos.x + (x : Int)
        if 0 ≤ brow ∧ 0 ≤ bcol then
          b.set brow.toNat ((b.getD brow.toNat []).set bcol.toNat
            { filled := true, color := some p.color, kind := some p.kind })
        else b
      else b) b) board

/-- Source: `type LastAction = "none" | "move" | "soft" | "hard" | "rotate"` -/
inductive LastAction
  | none | move | soft | hard | rotate
  deriving DecidableEq, Repr, BEq

/-- Result type of `isTSpin`. -/
inductive TSpinType
  | none | mini | full
  deriving DecidableEq, Repr, BEq

/-- One corner test inside `isTSpin`: blocked iff outside the board or
holding a filled cell. -/
def cornerBlocked (board : Board) (p : Point) : Bool :=
  decide (p.y < 0) || decide (p.x < 0) || decide ((COLS : Int) ≤ p.x) ||
    decide ((ROWS : Int) ≤ p.y) || filledAt board p.x p.y

/-- Source: `function isTSpin(cur)`: only for a T piece whose last action was a
rotation; counts blocked diagonal corners of the centre `pos + (1,1)`
against the given board, classifying `mini` when the rotation was kicked,
else `full`, when at least 3 corners are blocked. -/
def isTSpin (cur : Piece) (board : Board) (lastAction : LastAction) (kicked : Bool) :
    TSpinType :=
  if cur.kind != Tetromino.T then TSpinType.none
  else if lastAction != LastAction.rotate then TSpinType.none
  else
    let c : Point := ⟨cur.pos.x + 1, cur.pos.y + 1⟩
    let corners : List Point :=
      [⟨c.x - 1, c.y - 1⟩, ⟨c.x + 1, c.y - 1⟩, ⟨c.x - 1, c.y + 1⟩, ⟨c.x + 1, c.y + 1⟩]
    let blocked := corners.countP (fun p => cornerBlocked board p)
    if 3 ≤ blocked then (if kicked then TSpinType.mini else TSpinType.full)
    else TSpinType.none

/-- Source: `function isPerfectClear(board)`: no cell of the `ROWS × COLS` grid is
filled. -/
def isPerfectClear (board : Board) : Bool :=
  (List.range ROWS).all (fun y =>
    (List.range COLS).all (fun x => !((board.getD y []).getD x noCell).filled))

/-- Source: `board[y].every((c) => c.filled)` -/
def rowFull (r : Row) : Bool := r.all (fun c => c.filled)

/-- The row unshifted at the top for each removed full row:
`Array.from({length: COLS}, () => ({filled: false}))`. -/
def emptyRow : Row := List.replicate COLS noCell

/-- Source: `board.splice(y, 1); board.unshift(emptyRow)` -/
def spliceUnshift (b : Board) (y : Nat) : Board :=
  emptyRow :: (b.take y ++ b.drop (y + 1))

/-- The row-removal loop of `clearLines`:
`for (let y = ROWS-1; y >= 0;) { if full: splice+unshift, cleared++ (y
unchanged) else y-- }`.  The loop index is encoded as `y1 = y + 1` so that
`y1 = 0` is loop exit; the fuel argument only bounds the iteration count
(each step removes a full row or decrements the index, so
`length + number of full rows` iterations always suffice). -/
def clearLoop : Nat → Board → Nat → Nat → Nat × Board
  | 0, b, _, c => (c, b)
  | fuel + 1, b, y1, c =>
    match y1 with
    | 0 => (c, b)
    | y + 1 =>
      if rowFull (b.getD y []) then clearLoop fuel (spliceUnshift b y) (y + 1) (c + 1)
      else clearLoop fuel b y c

/-- The board part of `clearLines`: returns `(cleared, new board)`. -/
def clearLinesBoard (b : Board) : Nat × Board :=
  clearLoop (2 * b.length + 1) b b.length 0

/-- Source: `normalBase` with JavaScript's `?? 0` fallback. -/
def normalBase : Nat → Nat
  | 1 => 100 | 2 => 300 | 3 => 500 | 4 => 800 | _ => 0

/-- Source: `tMiniBase` with `?? 0`. -/
def tMiniBase : Nat → Nat
  | 0 => 100 | 1 => 200 | _ => 0

/-- Source: `tFullBase` with `?? 0`. -/
def tFullBase : Nat → Nat
  | 0 => 400 | 2 => 1200 | 3 => 1600 | _ => 0

/-- Source: `pcBonus` with `?? 0`. -/
def pcBonus : Nat → Nat
  | 1 => 800 | 2 => 1200 | 3 => 1800 | 4 => 2000 | _ => 0

/-- Source: `Math.round(g * 1.5)` for a non-negative integer `g`: exact when `g` is
even, and `.5` rounds up, i.e. `(3g + 1) / 2` in integer division. -/
def round15 (g : Nat) : Nat := (3 * g + 1) / 2

/-- Source: `type Challenge["type"] = "speed" | "reverse" | "none"` -/
inductive CType
  | none | speed | reverse
  deriving DecidableEq, Repr, BEq

/-- The engine state: the mutable refs and React state cells of
`GameClient` that the game rules read and write (`boardRef`, `curRef`,
`nextRef`, `gravityMsRef`, `lastActionRef`, `rotatedWithKickRef`, `b2bRef`,
`score`, `lines`, `level`, `running`, `paused`, `challenge`, `countdown`,
`seenChallenges`).  `pendingChallenge` records the `newChallenge` value a
freshly started countdown will activate when it reaches zero. -/
structure GameState where
  board : Board
  cur : Option Piece
  nextQueue : List Tetromino
  score : Nat
  lines : Nat
  level : Nat
  running : Bool
  paused : Bool
  lastAction : LastAction
  rotatedWithKick : Bool
  b2b : Bool
  gravityMs : Nat
  challenge : CType
  countdown : Option Nat
  pendingChallenge : Option CType
  seen : List CType
  deriving DecidableEq, Repr

/-- Source: `clearLines` of `gameClient.tsx` (lines 355-461): remove full rows,
then — only when at least one row was removed — score the lock event
(T-spin tables, level bonus, back-to-back multiplier, perfect-clear
bonuses), update lines/level/gravity, start a challenge countdown when the
new level is even, and reset the spin-tracking flags.  `cur` is
`curRef.current!` (the just-locked piece); the state's `board` field is the
board after `merge`, exactly as the mutable `boardRef` holds it when the
source function runs. -/
def clearLines (cur : Piece) (s : GameState) : GameState :=
  let res := clearLinesBoard s.board
  let cleared := res.1
  let board := res.2
  if cleared = 0 then { s with board := board }
  else
    let tspin := isTSpin cur board s.lastAction s.rotatedWithKick
    let base :=
      match tspin with
      | TSpinType.mini => tMiniBase cleared
      | TSpinType.full => tFullBase cleared
      | TSpinType.none => normalBase cleared
    let gained1 := base + s.level * 10
    let isB2BEvent : Bool :=
      (cleared == 4) || ((tspin != TSpinType.none) && decide (0 < cleared))
    let gained2 := if isB2BEvent && s.b2b then round15 gained1 else gained1
    let b2b1 := isB2BEvent
    let pc := isPerfectClear board
    let gained3 :=
      if pc then gained2 + pcBonus cleared + (if (cleared == 4) && b2b1 then 1200 else 0)
      else gained2
    let b2b2 := if pc then true else b2b1
    let newLines := s.lines + cleared
    let newLevel := 1 + newLines / 5
    let gms := max 120 (800 - (newLevel - 1) * 120)
    let trigger := newLevel % 2 == 0
    let ctype := if newLevel % 4 == 0 then CType.reverse else CType.speed
    let cd := if s.seen.contains ctype then 3 else 5
    { s with
      board := board
      lines := newLines
      score := s.score + gained3
      level := newLevel
      gravityMs := gms
      b2b := b2b2
      paused := if trigger then true else s.paused
      countdown := if trigger then some cd else s.countdown
      pendingChallenge := if trigger then some ctype else s.pendingChallenge
      rotatedWithKick := false
      lastAction := LastAction.none }

/-- The piece built by `spawn` for a dequeued kind: fresh copy of the
canonical shape, `x = Math.floor((COLS - width) / 2)`,
`y = -matrix.length + 1`. -/
def spawnPiece (k : Tetromino) : Piece :=
  let matrix := SHAPES k
  let width := (matrix.headD []).length
  { kind := k
    matrix := matrix
    pos := { x := ((COLS - width) / 2 : Nat), y := -(matrix.length : Int) + 1 }
    color := COLORS k }

/-- Source: `spawn` (gameClient lines 248-269): refill the queue with a bag when it
has ≤ 2 kinds left (the fresh shuffled bag is an explicit argument, keeping
the definition deterministic), dequeue the head, and either signal
game-over (`running := false`, the piece is not made active) when the new
piece collides at zero delta, or make it the active piece. -/
def spawn (bag : List Tetromino) (s : GameState) : GameState :=
  let queue := if s.nextQueue.length ≤ 2 then s.nextQueue ++ bag else s.nextQueue
  match queue with
  | [] => s
  | k :: rest =>
    let piece := spawnPiece k
    if collides piece s.board { x := 0, y := 0 } then
      { s with running := false, nextQueue := rest }
    else
      { s with cur := some piece, nextQueue := rest }

/-- Source: `move` (gameClient lines 480-496): paused is a full no-op; otherwise
the last action is recorded, then the shift (negated under an active
reverse challenge) is applied only when non-colliding. -/
def move (dx : Int) (s : GameState) : GameState :=
  if s.paused then s
  else
    let s1 := { s with lastAction := LastAction.move }
    match s1.cur with
    | Option.none => s1
    | some cur =>
      if !s1.running then s1
      else
        let actualDx := if s1.challenge == CType.reverse then -dx else dx
        if !(collides cur s1.board { x := actualDx, y := 0 }) then
          { s1 with cur := some { cur with pos := ⟨cur.pos.x + actualDx, cur.pos.y⟩ } }
        else s1

/-- Source: `softDrop` (gameClient lines 498-512): paused is a full no-op;
otherwise record the last action, then either descend one row (+1 point) or
lock: merge, clearLines, spawn. -/
def softDrop (bag : List Tetromino) (s : GameState) : GameState :=
  if s.paused then s
  else
    let s1 := { s with lastAction := LastAction.soft }
    match s1.cur with
    | Option.none => s1
    | some cur =>
      if !s1.running then s1
      else if !(collides cur s1.board { x := 0, y := 1 }) then
        { s1 with
          cur := some { cur with pos := ⟨cur.pos.x, cur.pos.y + 1⟩ }
          score := s1.score + 1 }
      else
        let s2 := { s1 with board := mergeB cur s1.board }
        spawn bag (clearLines cur s2)

/-- The `while (!collides(cur, board, {x:0, y:1})) { cur.pos.y++; d++ }`
descent of `hardDrop`, with fuel bounding the iteration count (a piece with
a filled cell always reaches a colliding row within
`ROWS + matrix height + |negative start row|` steps). -/
def dropDistance : Nat → Piece → Board → Piece × Nat
  | 0, cur, _ => (cur, 0)
  | fuel + 1, cur, board =>
    if !(collides cur board { x := 0, y := 1 }) then
      let r := dropDistance fuel { cur with pos := ⟨cur.pos.x, cur.pos.y + 1⟩ } board
      (r.1, r.2 + 1)
    else (cur, 0)

/-- Source: `hardDrop` (gameClient lines 463-478): paused is a full no-op;
otherwise record the last action, drop to rest, award 2 points per cell
descended, then merge, clearLines, spawn. -/
def hardDrop (bag : List Tetromino) (s : GameState) : GameState :=
  if s.paused then s
  else
    let s1 := { s with lastAction := LastAction.hard }
    match s1.cur with
    | Option.none => s1
    | some cur =>
      if !s1.running then s1
      else
        let r := dropDistance (ROWS + cur.matrix.length + (-cur.pos.y).toNat + 1) cur s1.board
        let s2 := { s1 with
          score := s1.score + r.2 * 2
          cur := some r.1
          board := mergeB r.1 s1.board }
        spawn bag (clearLines r.1 s2)

/-- Source: `const kicks = [0, -1, 1, -2, 2]` -/
def kickList : List Int := [0, -1, 1, -2, 2]

/-- The trial piece `{...cur, matrix: m, pos: {x: cur.pos.x + k, y: cur.pos.y}}`
tested by the kick loop of `rotate`. -/
def trial (cur : Piece) (m : Matrix) (k : Int) : Piece :=
  { cur with matrix := m, pos := { x := cur.pos.x + k, y := cur.pos.y } }

/-- The `for (const k of kicks)` loop of `rotate`: accept the first offset
whose trial does not collide, recording whether it was a non-zero kick and
the rotate action; fall through (state unchanged) when all collide. -/
def rotateKicks (cur : Piece) (m : Matrix) : List Int → GameState → GameState
  | [], s => s
  | k :: ks, s =>
    if !(collides (trial cur m k) s.board { x := 0, y := 0 }) then
      { s with
        cur := some (trial cur m k)
        rotatedWithKick := k != 0
        lastAction := LastAction.rotate }
    else rotateKicks cur m ks s

/-- Source: `rotate` (gameClient lines 514-534): no active piece, not running or
paused is a full no-op; otherwise rotate the matrix and run the kick
search. -/
def rotate (ccw : Bool) (s : GameState) : GameState :=
  match s.cur with
  | Option.none => s
  | some cur =>
    if !s.running || s.paused then s
    else
      let m := if ccw then rotateCCW cur.matrix else rotateCW cur.matrix
      rotateKicks cur m kickList s

end Tetris

namespace Tetris

/-! Concrete boards and states used by the counterexample and witness
theorems below. -/

/-- Source: `createEmptyBoard()`: a `ROWS × COLS` grid of unfilled cells. -/
def emptyBoard : Board := List.replicate ROWS emptyRow

/-- A filled cell (color/kind omitted; only `filled` matters to the rules). -/
def fullCell : Cell := { filled := true }

/-- A completely filled row. -/
def fullRow : Row := List.replicate COLS fullCell

/-- A T piece in its 180-degree orientation resting at the bottom-left:
cells at board rows 18 (columns 0,1,2) and 19 (column 1); its centre is
`(1, 18)`, with diagonal corners `(0,17)`, `(2,17)`, `(0,19)`, `(2,19)`. -/
def tSlotPiece : Piece :=
  { kind := Tetromino.T, matrix := [[0,0,0],[1,1,1],[0,1,0]],
    pos := { x := 0, y := 17 }, color := "#a855f7" }

/-- Board for the C1 scenario: corner cells `(0,17)`, `(0,19)`, `(2,19)`
filled (3 of 4 corners blocked) and row 19 filled everywhere except
column 1, so that merging `tSlotPiece` completes row 19. -/
def c1Board : Board :=
  (emptyBoard.set 17 (emptyRow.set 0 fullCell)).set 19 (fullRow.set 1 noCell)

/-- The engine state at the moment `clearLines` runs for the C1 scenario:
the board already holds the merged piece (exactly what `boardRef.current`
contains when the source `clearLines` executes), the last action is a
non-kicked rotation, level 1, no back-to-back carried. -/
def c1State : GameState :=
  { board := mergeB tSlotPiece c1Board, cur := some tSlotPiece, nextQueue := [],
    score := 0, lines := 0, level := 1, running := true, paused := false,
    lastAction := LastAction.rotate, rotatedWithKick := false, b2b := false,
    gravityMs := 800, challenge := CType.none, countdown := none,
    pendingChallenge := none, seen := [] }

/-- An I piece as used for non-T lock events in the scenarios. -/
def iPiece : Piece :=
  { kind := Tetromino.I, matrix := SHAPES Tetromino.I,
    pos := { x := 3, y := 15 }, color := "#06b6d4" }

/-- C2 scenario state: the bottom four rows are full (a Tetris that will
perfect-clear the board), the carried back-to-back flag is `false`. -/
def c2State : GameState :=
  { board := List.replicate 16 emptyRow ++ List.replicate 4 fullRow,
    cur := some iPiece, nextQueue := [],
    score := 0, lines := 0, level := 1, running := true, paused := false,
    lastAction := LastAction.hard, rotatedWithKick := false, b2b := false,
    gravityMs := 800, challenge := CType.none, countdown := none,
    pendingChallenge := none, seen := [] }

/-- C3 scenario state: 5 lines already cleared (level 2), one full bottom
row about to clear, plus a stray filled cell in row 18 so the clear is not
a perfect clear.  Clearing one row leaves the level at 2. -/
def c3State : GameState :=
  { board := (emptyBoard.set 18 (emptyRow.set 0 fullCell)).set 19 fullRow,
    cur := some iPiece, nextQueue := [],
    score := 0, lines := 5, level := 2, running := true, paused := false,
    lastAction := LastAction.hard, rotatedWithKick := false, b2b := false,
    gravityMs := 680, challenge := CType.none, countdown := none,
    pendingChallenge := none, seen := [] }

/-- Board for the C5 scenario: the same T pocket as C1 (corners `(0,17)`,
`(0,19)`, `(2,19)` filled) but row 19 only holds the two corner cells, so
no row becomes full when the T piece merges. -/
def c5Board : Board :=
  (emptyBoard.set 17 (emptyRow.set 0 fullCell)).set 19
    ((emptyRow.set 0 fullCell).set 2 fullCell)

/-- C5 scenario state at the moment `clearLines` runs: board holds the
merged T piece, last action is a non-kicked rotation. -/
def c5State : GameState :=
  { c1State with board := mergeB tSlotPiece c5Board }

/-- C1: in `gameClient.tsx` the T-spin corners are examined against
`boardRef.current` *after* `merge` has run (the `softDrop`/`hardDrop` lock
paths call `merge(cur)` then `clearLines()`) and *after* `clearLines` has
already spliced out the full rows, not against the board at the moment of
locking.  On `c1Board` the pre-merge, pre-clear classification is `full`
(3 corners blocked), but the row removed below the piece shifts the stack
down, so the engine sees only 2 blocked corners, classifies `none`, and
scores the single-line clear as a normal clear (100 + level bonus 10 = 110
points) instead of a full T-spin single (0 + 10 = 10 points). -/
theorem c1_tspin_checked_after_merge_and_clear :
    isTSpin tSlotPiece c1Board LastAction.rotate false = TSpinType.full ∧
    (clearLinesBoard (mergeB tSlotPiece c1Board)).1 = 1 ∧
    isTSpin tSlotPiece (clearLinesBoard (mergeB tSlotPiece c1Board)).2
      LastAction.rotate false = TSpinType.none ∧
    (clearLines tSlotPiece c1State).score = 110 := by
  refine ⟨by decide, by decide, by decide, by decide⟩

/-- C2: on a 4-row perfect clear entered with the carried back-to-back
flag `false`, the engine still adds the extra 1200: `b2bRef.current` is
overwritten to `true` (every Tetris is a B2B-eligible event) *before* the
perfect-clear block reads it, so `cleared === 4 && b2bRef.current` is
always true.  Total gained is 800 (Tetris) + 10 (level) + 2000 (perfect
clear) + 1200 = 4010, where the claim predicts 2810.  The second part of
the claim (the carried flag is forced true after a perfect clear) does
hold. -/
theorem c2_pc_b2b_bonus_unconditional :
    c2State.b2b = false ∧
    (clearLines iPiece c2State).score = 4010 ∧
    (clearLines iPiece c2State).b2b = true := by
  refine ⟨rfl, by decide, by decide⟩

/-- C3: the challenge trigger in `clearLines` tests only
`newLevel % 2 === 0`, never whether the level changed.  From `c3State`
(already at level 2) a single-line clear leaves the level at 2, yet the
engine pauses the run and starts a fresh countdown (5 ticks, first
occurrence) for a speed challenge. -/
theorem c3_challenge_retriggers_at_unchanged_even_level :
    c3State.level = 2 ∧ c3State.paused = false ∧ c3State.countdown = none ∧
    (clearLines iPiece c3State).level = 2 ∧
    (clearLines iPiece c3State).paused = true ∧
    (clearLines iPiece c3State).countdown = some 5 ∧
    (clearLines iPiece c3State).pendingChallenge = some CType.speed := by
  refine ⟨rfl, rfl, rfl, by decide, by decide, by decide, by decide⟩

/-- C5: every score update in `clearLines` sits inside `if (cleared > 0)`,
so a lock event whose clear count is 0 awards nothing — even though the
engine's own tables `tMiniBase = {0: 100, ...}` and `tFullBase = {0: 400,
...}` define 0-row T-spin scores.  In `c5State` the locked T piece
satisfies the 3-corner rule (classification `full`), no row is full, and
`clearLines` returns the state unchanged: 0 points instead of the claimed
400. -/
theorem c5_zero_row_tspin_awards_nothing :
    isTSpin tSlotPiece c5State.board LastAction.rotate false = TSpinType.full ∧
    (clearLinesBoard c5State.board).1 = 0 ∧
    clearLines tSlotPiece c5State = c5State := by
  refine ⟨by decide, by decide, by decide⟩

end Tetris

namespace Tetris

/-- A game-over state (running = false, not paused) with an active piece
left over from the previous lock. -/
def c4DeadState : GameState :=
  { c1State with running := false, lastAction := LastAction.none }

/-- A paused mid-run state. -/
def c4PausedState : GameState :=
  { c1State with paused := true, lastAction := LastAction.none }

/-- C4 counterexample: with the run over (`running = false`, not paused)
`softDrop` is *not* a complete no-op — the source sets
`lastActionRef.current = "soft"` before it checks `running`, so the
last-action record changes from `none` to `soft`. -/
theorem c4_counterexample_softdrop_not_noop_when_dead :
    softDrop [] c4DeadState ≠ c4DeadState ∧
    (softDrop [] c4DeadState).lastAction = LastAction.soft ∧
    c4DeadState.lastAction = LastAction.none := by
  refine ⟨by decide, by decide, rfl⟩

/-- C4 as amended: when the run is paused, all four operations are
complete no-ops.  When the run is not running (and not paused), the board,
piece, score, lines, level, kicked flag and back-to-back flag are all
unchanged, but `move`, `softDrop` and `hardDrop` overwrite the last-action
record with their own tag before returning (`rotate` alone leaves the
state fully unchanged). -/
theorem c4_ops_noop_when_paused_or_dead (s : GameState) (bag : List Tetromino)
    (dx : Int) (ccw : Bool) :
    (s.paused = true →
      move dx s = s ∧ softDrop bag s = s ∧ hardDrop bag s = s ∧ rotate ccw s = s) ∧
    (s.running = false → s.paused = false →
      move dx s = { s with lastAction := LastAction.move } ∧
      softDrop bag s = { s with lastAction := LastAction.soft } ∧
      hardDrop bag s = { s with lastAction := LastAction.hard } ∧
      rotate ccw s = s) := by
  constructor
  · intro hp
    refine ⟨?_, ?_, ?_, ?_⟩
    · simp [move, hp]
    · simp [softDrop, hp]
    · simp [hardDrop, hp]
    · cases hc : s.cur with
      | none => simp [rotate, hc]
      | some cur => simp [rotate, hc, hp]
  · intro hr hp
    refine ⟨?_, ?_, ?_, ?_⟩
    · cases hc : s.cur with
      | none => simp [move, hp, hc]
      | some cur => simp [move, hp, hc, hr]
    · cases hc : s.cur with
      | none => simp [softDrop, hp, hc]
      | some cur => simp [softDrop, hp, hc, hr]
    · cases hc : s.cur with
      | none => simp [hardDrop, hp, hc]
      | some cur => simp [hardDrop, hp, hc, hr]
    · cases hc : s.cur with
      | none => simp [rotate, hc]
      | some cur => simp [rotate, hc, hr]

/-- Witness for the amended C4 theorem at concrete states: a paused state
where `move` is a complete no-op, and a game-over state where `softDrop`
changes only the last-action record. -/
theorem c4_ops_noop_witness :
    move 1 c4PausedState = c4PausedState ∧
    softDrop [] c4DeadState = { c4DeadState with lastAction := LastAction.soft } :=
  ⟨((c4_ops_noop_when_paused_or_dead c4PausedState [] 1 false).1 rfl).1,
   (((c4_ops_noop_when_paused_or_dead c4DeadState [] 1 false).2 rfl rfl).2.1)⟩

/-- C6: the contract of `spawn`.  With `queue` the refilled queue and `k`
its head, either the freshly constructed piece collides at zero delta — in
which case spawn only flips `running` to `false` and drops the dequeued
kind (the board, score, and currently stored piece are untouched and the
new piece is not made active) — or the piece becomes the single active
piece, and then the active piece does not collide with the board at zero
delta. -/
theorem c6_spawn_contract (s : GameState) (bag : List Tetromino)
    (k : Tetromino) (rest : List Tetromino)
    (hq : (if s.nextQueue.length ≤ 2 then s.nextQueue ++ bag else s.nextQueue)
            = k :: rest) :
    (collides (spawnPiece k) s.board { x := 0, y := 0 } = true →
      spawn bag s = { s with running := false, nextQueue := rest }) ∧
    (collides (spawnPiece k) s.board { x := 0, y := 0 } = false →
      spawn bag s = { s with cur := some (spawnPiece k), nextQueue := rest } ∧
      ∀ p, (spawn bag s).cur = some p →
        collides p s.board { x := 0, y := 0 } = false) := by
  constructor
  · intro hcol
    simp [spawn, hq, hcol]
  · intro hcol
    constructor
    · simp [spawn, hq, hcol]
    · intro p hp
      simp [spawn, hq, hcol] at hp
      simpa [hp.symm] using hcol

/-- The pre-spawn state for the C6 witness: empty board, no active piece,
three kinds queued. -/
def c6StartState : GameState :=
  { c1State with
    board := emptyBoard
    cur := Option.none
    nextQueue := [Tetromino.T, Tetromino.I, Tetromino.J] }

/-- Witness for the C6 contract: spawning a T piece onto the empty board
succeeds and the spawned piece does not collide at zero delta. -/
theorem c6_spawn_contract_witness :
    spawn [] c6StartState
      = { c6StartState with
          cur := some (spawnPiece Tetromino.T)
          nextQueue := [Tetromino.I, Tetromino.J] } :=
  ((c6_spawn_contract c6StartState
      [] Tetromino.T [Tetromino.I, Tetromino.J] (by decide)).2 (by decide)).1

end Tetris

namespace Tetris

/-- Helper for C7: the kick loop accepts exactly the first offset of its
list whose trial piece does not collide, and falls through unchanged when
every offset collides. -/
theorem rotateKicks_first_accepted (cur : Piece) (m : Matrix) (ks : List Int)
    (s : GameState) :
    (ks.find? (fun k => !(collides (trial cur m k) s.board { x := 0, y := 0 }))
        = Option.none →
      rotateKicks cur m ks s = s) ∧
    (∀ k, ks.find? (fun k => !(collides (trial cur m k) s.board { x := 0, y := 0 }))
        = some k →
      rotateKicks cur m ks s =
        { s with
          cur := some (trial cur m k)
          rotatedWithKick := k != 0
          lastAction := LastAction.rotate }) := by
  induction ks with
  | nil => simp [rotateKicks]
  | cons k0 ks ih =>
    by_cases h : collides (trial cur m k0) s.board { x := 0, y := 0 } = true
    · constructor
      · intro hf
        rw [List.find?_cons_of_neg] at hf
        · simp only [rotateKicks, h]
          simp [ih.1 hf]
        · simp [h]
      · intro k hf
        rw [List.find?_cons_of_neg] at hf
        · simp only [rotateKicks, h]
          simp [ih.2 k hf]
        · simp [h]
    · have h' : collides (trial cur m k0) s.board { x := 0, y := 0 } = false := by
        simpa using h
      constructor
      · intro hf
        rw [List.find?_cons_of_pos] at hf
        · exact absurd hf (by simp)
        · simp [h']
      · intro k hf
        rw [List.find?_cons_of_pos] at hf
        · simp only [Option.some.injEq] at hf
          subst hf
          simp [rotateKicks, h']
        · simp [h']

/-- C7: `rotate(ccw)` on a live state tries the horizontal kicks in the
fixed order `[0, -1, 1, -2, 2]` against the rotated matrix at the piece's
current row; the first non-colliding offset `k` is accepted (matrix and x
position updated, kicked flag iff `k ≠ 0`, last action `rotate`), and when
every offset collides, the whole state is left unchanged. -/
theorem c7_rotate_kick_search (s : GameState) (cur : Piece) (ccw : Bool)
    (hc : s.cur = some cur) (hr : s.running = true) (hp : s.paused = false) :
    (kickList.find? (fun k =>
        !(collides (trial cur (if ccw then rotateCCW cur.matrix else rotateCW cur.matrix) k)
            s.board { x := 0, y := 0 })) = Option.none →
      rotate ccw s = s) ∧
    (∀ k, kickList.find? (fun k =>
        !(collides (trial cur (if ccw then rotateCCW cur.matrix else rotateCW cur.matrix) k)
            s.board { x := 0, y := 0 })) = some k →
      rotate ccw s =
        { s with
          cur := some (trial cur (if ccw then rotateCCW cur.matrix else rotateCW cur.matrix) k)
          rotatedWithKick := k != 0
          lastAction := LastAction.rotate }) := by
  have hk := rotateKicks_first_accepted cur
    (if ccw then rotateCCW cur.matrix else rotateCW cur.matrix) kickList s
  constructor
  · intro hf
    have := hk.1 hf
    simpa [rotate, hc, hr, hp] using this
  · intro k hf
    have := hk.2 k hf
    simpa [rotate, hc, hr, hp] using this

/-- A vertical I piece (it occupies column `pos.x + 2`) resting against
the right wall: rotating it clockwise back to horizontal collides at kick
offset 0 (column 10) but fits at offset -1. -/
def c7Piece : Piece :=
  { kind := Tetromino.I
    matrix := [[0,0,1,0],[0,0,1,0],[0,0,1,0],[0,0,1,0]]
    pos := { x := 7, y := 0 }
    color := "#06b6d4" }

/-- The live state for the C7 witness. -/
def c7State : GameState :=
  { c1State with
    board := emptyBoard
    cur := some c7Piece
    lastAction := LastAction.none }

/-- Witness for C7 at a concrete input: the kick search skips offset 0
(collision with the right wall) and accepts -1, setting the kicked flag
and the rotate action. -/
theorem c7_rotate_kick_search_witness :
    rotate false c7State
      = { c7State with
          cur := some (trial c7Piece (rotateCW c7Piece.matrix) (-1))
          rotatedWithKick := true
          lastAction := LastAction.rotate } := by
  have h := (c7_rotate_kick_search c7State c7Piece false rfl rfl rfl).2 (-1) (by decide)
  simpa using h

end Tetris

namespace Tetris

/-- C10: full characterization of `collides` — a collision is reported iff
some filled matrix cell has a non-negative board row and that cell is
out of bounds horizontally, below the floor, or over a filled board cell.
The `0 ≤ row` conjunct applies before every other test, so a filled cell
with a negative board row contributes no collision even when its board
column lies outside `[0, COLS)`: a piece partially above the board top may
overhang the side walls there. -/
theorem c10_collides_negative_row_exempt (p : Piece) (board : Board) (delta : Point) :
    collides p board delta = true ↔
      ∃ y x, y < p.matrix.length ∧ x < (p.matrix.getD y []).length ∧
        (p.matrix.getD y []).getD x 0 ≠ 0 ∧
        0 ≤ p.pos.y + (y : Int) + delta.y ∧
        (p.pos.x + (x : Int) + delta.x < 0 ∨
         (COLS : Int) ≤ p.pos.x + (x : Int) + delta.x ∨
         (ROWS : Int) ≤ p.pos.y + (y : Int) + delta.y ∨
         filledAt board (p.pos.x + (x : Int) + delta.x) (p.pos.y + (y : Int) + delta.y)
           = true) := by
  simp only [collides, List.any_eq_true, List.mem_range, Bool.and_eq_true, bne_iff_ne,
    Bool.not_eq_true', decide_eq_false_iff_not, Int.not_lt, Bool.or_eq_true,
    decide_eq_true_eq]
  constructor
  · rintro ⟨y, hy, x, hx, h1, h2, h3⟩
    refine ⟨y, x, hy, hx, h1, h2, ?_⟩
    tauto
  · rintro ⟨y, x, hy, hx, h1, h2, h3⟩
    refine ⟨y, hy, x, hx, h1, h2, ?_⟩
    tauto

end Tetris

namespace Tetris

/-- C9: for a rectangular `h x w` 0/1 matrix (`h, w > 0`), `rotateCW`
returns the `w x h` matrix with output cell `(x, h-1-y)` equal to input
cell `(y, x)`, `rotateCCW` returns the matrix with output cell `(w-1-x, y)`
equal to input cell `(y, x)`, and `rotateCCW (rotateCW m)` reproduces `m`
exactly. -/
theorem c9_rotations (m : Matrix) (h w : Nat) (hh : m.length = h)
    (hw : ∀ r ∈ m, r.length = w) (hpos : 0 < h) (wpos : 0 < w) :
    (rotateCW m).length = w ∧ (∀ r ∈ rotateCW m, r.length = h) ∧
    (∀ y x, y < h → x < w →
      ((rotateCW m).getD x []).getD (h - 1 - y) 0 = (m.getD y []).getD x 0) ∧
    (∀ y x, y < h → x < w →
      ((rotateCCW m).getD (w - 1 - x) []).getD y 0 = (m.getD y []).getD x 0) ∧
    rotateCCW (rotateCW m) = m := by
  have hmne : m ≠ [] := by
    intro e
    rw [e] at hh
    simp at hh
    omega
  have hhead : (m.headD []).length = w := by
    obtain ⟨r, tl, rfl⟩ := List.exists_cons_of_ne_nil hmne
    exact hw r (by simp)
  have hCWdef : rotateCW m =
      (List.range w).map (fun x => (List.range h).map
        (fun c => (m.getD (h - 1 - c) []).getD x 0)) := by
    rw [rotateCW, hhead, hh]
  have hCCWdef : rotateCCW m =
      (List.range w).map (fun a => (List.range h).map
        (fun b => (m.getD b []).getD (w - 1 - a) 0)) := by
    rw [rotateCCW, hhead, hh]
  have hlen : (rotateCW m).length = w := by simp [hCWdef]
  have hrows : ∀ r ∈ rotateCW m, r.length = h := by
    intro r hr
    rw [hCWdef] at hr
    obtain ⟨x, hx, rfl⟩ := List.mem_map.mp hr
    simp
  have hCW : ∀ x c, x < w → c < h →
      ((rotateCW m).getD x []).getD c 0 = (m.getD (h - 1 - c) []).getD x 0 := by
    intro x c hx hc
    have h1 : (rotateCW m).getD x []
        = (List.range h).map (fun c => (m.getD (h - 1 - c) []).getD x 0) := by
      rw [hCWdef]
      rw [List.getD_eq_getElem _ _ (by simpa using hx)]
      simp
    rw [h1]
    rw [List.getD_eq_getElem _ _ (by simpa using hc)]
    simp
  have hCCW : ∀ a b, a < w → b < h →
      ((rotateCCW m).getD a []).getD b 0 = (m.getD b []).getD (w - 1 - a) 0 := by
    intro a b ha hb
    have h1 : (rotateCCW m).getD a []
        = (List.range h).map (fun b => (m.getD b []).getD (w - 1 - a) 0) := by
      rw [hCCWdef]
      rw [List.getD_eq_getElem _ _ (by simpa using ha)]
      simp
    rw [h1]
    rw [List.getD_eq_getElem _ _ (by simpa using hb)]
    simp
  refine ⟨hlen, hrows, ?_, ?_, ?_⟩
  · intro y x hy hx
    rw [hCW x (h - 1 - y) hx (by omega)]
    have he : h - 1 - (h - 1 - y) = y := by omega
    rw [he]
  · intro y x hy hx
    rw [hCCW (w - 1 - x) y (by omega) hy]
    have he : w - 1 - (w - 1 - x) = x := by omega
    rw [he]
  · -- round trip
    have hNne : rotateCW m ≠ [] := by
      intro e
      rw [e] at hlen
      simp at hlen
      omega
    have hNhead : ((rotateCW m).headD []).length = h := by
      obtain ⟨r, tl, hcons⟩ := List.exists_cons_of_ne_nil hNne
      rw [hcons]
      simp only [List.headD_cons]
      exact hrows r (by rw [hcons]; simp)
    have hdef2 : rotateCCW (rotateCW m) =
        (List.range h).map (fun a => (List.range w).map
          (fun b => ((rotateCW m).getD b []).getD (h - 1 - a) 0)) := by
      rw [rotateCCW, hNhead, hlen]
    rw [hdef2]
    apply List.ext_getElem
    · simp [hh]
    · intro i h1 h2
      simp only [List.getElem_map, List.getElem_range]
      have hi : i < h := by simpa using h1
      apply List.ext_getElem
      · have : m[i].length = w := hw m[i] (List.getElem_mem h2)
        simp [this]
      · intro j hj1 hj2
        simp only [List.getElem_map, List.getElem_range]
        have hj : j < w := by simpa using hj1
        rw [hCW j (h - 1 - i) hj (by omega)]
        have he : h - 1 - (h - 1 - i) = i := by omega
        rw [he]
        rw [List.getD_eq_getElem _ _ h2]
        rw [List.getD_eq_getElem _ _ hj2]

/-- Witness for C9 at the canonical T shape (a 3x3 rectangular 0/1
matrix): the round trip reproduces it exactly. -/
theorem c9_rotations_witness :
    rotateCCW (rotateCW (SHAPES Tetromino.T)) = SHAPES Tetromino.T :=
  (c9_rotations (SHAPES Tetromino.T) 3 3 rfl (by decide) (by decide)
    (by decide)).2.2.2.2

end Tetris

namespace Tetris

/-- The unshifted top row is never itself "full" (COLS = 10 > 0 unfilled
cells), which is what makes the row-removal loop terminate. -/
theorem rowFull_emptyRow : rowFull emptyRow = false := by decide

/-- Invariant of the row-removal loop: with `rt` the rows at indices
`0 .. y` listed top-down in reverse (so the row currently under scan is
`rt`'s head) and `bottom` the already-scanned rows below (none full), the
loop removes exactly the full rows of `rt`, pushing one empty row to the
top per removal. -/
theorem clearLoop_go (fuel : Nat) : ∀ (rt bottom : Board) (c : Nat),
    rt.length + rt.countP rowFull < fuel →
    (∀ r ∈ bottom, rowFull r = false) →
    clearLoop fuel (rt.reverse ++ bottom) rt.length c =
      (c + rt.countP rowFull,
       List.replicate (rt.countP rowFull) emptyRow
         ++ rt.reverse.filter (fun r => !rowFull r) ++ bottom) := by
  induction fuel with
  | zero =>
    intro rt bottom c hf hb
    omega
  | succ fuel ih =>
    intro rt bottom c hf hb
    cases rt with
    | nil =>
      simp [clearLoop]
    | cons r rt' =>
      have hb' : (r :: rt').reverse ++ bottom = rt'.reverse ++ (r :: bottom) := by
        simp
      have hidx : ((r :: rt').reverse ++ bottom).getD rt'.length [] = r := by
        rw [hb']
        rw [List.getD_eq_getElem _ _ (by simp)]
        rw [List.getElem_append_right (by simp)]
        simp
      show clearLoop (fuel + 1) ((r :: rt').reverse ++ bottom) (rt'.length + 1) c = _
      rw [clearLoop]
      simp only [hidx]
      by_cases hr : rowFull r = true
      · rw [if_pos hr]
        have hsplice : spliceUnshift ((r :: rt').reverse ++ bottom) rt'.length
            = (rt' ++ [emptyRow]).reverse ++ bottom := by
          rw [spliceUnshift, hb']
          rw [List.take_left' (by simp)]
          have hdrop : (rt'.reverse ++ (r :: bottom)).drop (rt'.length + 1) = bottom := by
            rw [show rt'.reverse ++ (r :: bottom) = (rt'.reverse ++ [r]) ++ bottom by simp]
            exact List.drop_left' (by simp)
          rw [hdrop]
          simp
        rw [hsplice]
        have hlen2 : rt'.length + 1 = (rt' ++ [emptyRow]).length := by simp
        rw [hlen2]
        have hcnt : (rt' ++ [emptyRow]).countP rowFull = rt'.countP rowFull := by
          simp [List.countP_append, rowFull_emptyRow]
        have hcnt2 : (r :: rt').countP rowFull = rt'.countP rowFull + 1 := by
          simp [List.countP_cons, hr]
        rw [ih (rt' ++ [emptyRow]) bottom (c + 1) ?hfu hb]
        case hfu =>
          simp only [List.length_cons] at hf
          rw [hcnt2] at hf
          simp only [List.length_append, List.length_cons, List.length_nil, hcnt]
          omega
        rw [hcnt, hcnt2]
        rw [Prod.mk.injEq]
        refine ⟨by omega, ?_⟩
        rw [List.reverse_append, List.reverse_cons]
        simp [List.filter_append, hr, rowFull_emptyRow, List.replicate_succ']
      · have hrf : rowFull r = false := by simpa using hr
        rw [if_neg (by simp [hrf])]
        rw [hb']
        have hfu : rt'.length + rt'.countP rowFull < fuel := by
          simp only [List.length_cons, List.countP_cons, hrf] at hf
          simp at hf
          omega
        have hball : ∀ x ∈ r :: bottom, rowFull x = false := by
          intro x hx
          rcases List.mem_cons.mp hx with h1 | h2
          · rw [h1]; exact hrf
          · exact hb x h2
        rw [ih rt' (r :: bottom) c hfu hball]
        have hcnt2 : (r :: rt').countP rowFull = rt'.countP rowFull := by
          simp [List.countP_cons, hrf]
        rw [hcnt2]
        rw [Prod.mk.injEq]
        refine ⟨rfl, ?_⟩
        rw [List.reverse_cons]
        simp [List.filter_append, hrf, List.append_assoc]


/-- C8: for every board, `clearLines` removes exactly the rows whose
every cell is filled (any number of them), inserts one empty row at the
top per removed row while preserving the relative order of the remaining
rows, and reports the number of removed rows; in particular a board with
no full rows is returned unchanged with count 0. -/
theorem c8_clearLines_spec (b : Board) :
    clearLinesBoard b =
      (b.countP rowFull,
       List.replicate (b.countP rowFull) emptyRow ++ b.filter (fun r => !rowFull r)) ∧
    ((∀ r ∈ b, rowFull r = false) → clearLinesBoard b = (0, b)) := by
  have hcnt : b.reverse.countP rowFull = b.countP rowFull := by
    rw [List.countP_eq_length_filter, List.countP_eq_length_filter, List.filter_reverse,
      List.length_reverse]
  have hle : b.countP rowFull ≤ b.length := List.countP_le_length _
  have hmain : clearLinesBoard b =
      (b.countP rowFull,
       List.replicate (b.countP rowFull) emptyRow ++ b.filter (fun r => !rowFull r)) := by
    have h := clearLoop_go (2 * b.length + 1) b.reverse [] 0
      (by rw [List.length_reverse, hcnt]; omega) (by intro r hr; simp at hr)
    rw [List.reverse_reverse, List.append_nil, List.length_reverse, hcnt] at h
    simpa [clearLinesBoard, List.filter_reverse] using h
  refine ⟨hmain, ?_⟩
  intro hnf
  rw [hmain]
  have h0 : b.countP rowFull = 0 := by
    rw [List.countP_eq_zero]
    intro a ha
    simp [hnf a ha]
  have hfil : b.filter (fun r => !rowFull r) = b := by
    rw [List.filter_eq_self]
    intro a ha
    simp [hnf a ha]
  rw [h0, hfil]
  simp

/-- Witness for C8 at a concrete input: a single non-full row is left
unchanged with count 0. -/
theorem c8_clearLines_spec_witness :
    clearLinesBoard [emptyRow] = (0, [emptyRow]) :=
  (c8_clearLines_spec [emptyRow]).2 (by
    intro r hr
    simp only [List.mem_singleton] at hr
    rw [hr]
    exact rowFull_emptyRow)

end Tetris
